import Mathlib

/-!
Shallow embedding of `ramhorns/src/content.rs`: the `Content` trait (its
default method bodies) and the built-in adapter `impl`s for `&str`,
`String`, `Option<T>`, `Result<T, U>`, `Vec<T>`, `&[T]`, `HashMap<K, V>`
and `BTreeMap<K, V>`.

Modelling conventions:
* A rendering operation takes the encoder state `σ` and returns the new
  state together with an optional error (`σ × Option ε`), mirroring a
  Rust method that mutates `&mut E` and returns `Result<(), E::Error>`.
  The `?` operator corresponds to `bindRM`: on error the state written so
  far is kept and the continuation is not run.
* The external `Section` collaborator exposes a single operation,
  render-once; each definition that uses it takes that operation as an
  explicit function argument `ronce` on the content type at which the
  Rust code invokes `section.render_once`.
* The external `Encoder` collaborator is a record of its three write
  operations; the external markdown converter `crate::cmark::encode` is
  an explicit function argument `cm`.
* Rust `u64` hashes are modelled as `Nat` (no arithmetic is performed on
  them), string byte length `len()` as `String.utf8ByteSize`, `Vec<T>`
  and `&[T]` as `List`, and the two string-keyed maps as association
  lists with first-match lookup (Rust maps have unique keys).
-/

/-- The compiled template, used only as an opaque argument of
`capacity_hint`. -/
inductive Template : Type where
| mk : Template

/-- Sequencing of fallible encoder actions: Rust `expr?;` on a
`Result<(), E::Error>` with a `&mut` encoder. On error, the state written
so far is kept and nothing further runs. -/
def bindRM {σ ε : Type} (r : σ × Option ε) (k : σ → σ × Option ε) : σ × Option ε :=
match r with
| (s, none) => k s
| (s, some e) => (s, some e)

/-- The external `Encoder` trait: an escaped write, an unescaped write
and a numeric-format write, each fallible with error type `ε`. -/
structure Encoder (σ ε : Type) where
write_escaped : String → σ → σ × Option ε
write_unescaped : String → σ → σ × Option ε
format_unescaped : String → σ → σ × Option ε

/-- Trait default: `fn is_truthy(&self) -> bool { true }`. -/
def Content.is_truthy_default {α : Type} (_self : α) : Bool :=
true

/-- Trait default: `fn capacity_hint(&self, _tpl: &Template) -> usize { 0 }`. -/
def Content.capacity_hint_default {α : Type} (_self : α) (_tpl : Template) : Nat :=
0

/-- Trait default: `fn render_escaped(&self, _encoder) { Ok(()) }`. -/
def Content.render_escaped_default {α σ ε : Type} (_self : α) (enc : σ) : σ × Option ε :=
(enc, none)

/-- Trait default: `render_unescaped` delegates to `self.render_escaped`
(whatever body the implementing type gave it). -/
def Content.render_unescaped_default {α σ ε : Type} (rEsc : α → σ → σ × Option ε) (self : α) (enc : σ) : σ × Option ε :=
rEsc self enc

/-- Trait default: `render_cmark` delegates to `self.render_escaped`. -/
def Content.render_cmark_default {α σ ε : Type} (rEsc : α → σ → σ × Option ε) (self : α) (enc : σ) : σ × Option ε :=
rEsc self enc

/-- Trait default: `render_section` invokes `section.render_once(self)`
iff `self.is_truthy()`, else `Ok(())`. `truthy` is the implementing
type's `is_truthy` and `ronce` the section's render-once operation. -/
def Content.render_section_default {α σ ε : Type} (truthy : α → Bool) (self : α) (ronce : α → σ → σ × Option ε) (enc : σ) : σ × Option ε :=
if truthy self then ronce self enc else (enc, none)

/-- Trait default: `render_inverse` invokes `section.render_once(self)`
iff `!self.is_truthy()`, else `Ok(())`. -/
def Content.render_inverse_default {α σ ε : Type} (truthy : α → Bool) (self : α) (ronce : α → σ → σ × Option ε) (enc : σ) : σ × Option ε :=
if ! truthy self then ronce self enc else (enc, none)

/-- Trait default: `render_field_escaped` is a no-op (absent field). -/
def Content.render_field_escaped_default {α σ ε : Type} (_self : α) (_hash : Nat) (_name : String) (enc : σ) : σ × Option ε :=
(enc, none)

/-- Trait default: `render_field_unescaped` is a no-op. -/
def Content.render_field_unescaped_default {α σ ε : Type} (_self : α) (_hash : Nat) (_name : String) (enc : σ) : σ × Option ε :=
(enc, none)

/-- Trait default: `render_field_section` is a no-op. -/
def Content.render_field_section_default {α σ ε : Type} (_self : α) (_hash : Nat) (_name : String) (_ronce : α → σ → σ × Option ε) (enc : σ) : σ × Option ε :=
(enc, none)

/-- Trait default: `render_field_inverse` is a no-op. -/
def Content.render_field_inverse_default {α σ ε : Type} (_self : α) (_hash : Nat) (_name : String) (_ronce : α → σ → σ × Option ε) (enc : σ) : σ × Option ε :=
(enc, none)

/-- Rust `impl Content for &str`: `fn is_truthy(&self) -> bool { self.len() != 0 }`. -/
def Str.is_truthy (s : String) : Bool :=
s.utf8ByteSize != 0

/-- Rust `impl Content for &str`: `fn capacity_hint(&self, _tpl) -> usize { self.len() }`. -/
def Str.capacity_hint (s : String) (_tpl : Template) : Nat :=
s.utf8ByteSize

/-- Rust `impl Content for &str`: `encoder.write_escaped(*self)`. -/
def Str.render_escaped {σ ε : Type} (E : Encoder σ ε) (s : String) (enc : σ) : σ × Option ε :=
E.write_escaped s enc

/-- Rust `impl Content for &str`: `encoder.write_unescaped(*self)`. -/
def Str.render_unescaped {σ ε : Type} (E : Encoder σ ε) (s : String) (enc : σ) : σ × Option ε :=
E.write_unescaped s enc

/-- Rust `impl Content for &str`: `crate::cmark::encode(*self, encoder)`;
`cm` is the external markdown converter. -/
def Str.render_cmark {σ ε : Type} (cm : String → σ → σ × Option ε) (s : String) (enc : σ) : σ × Option ε :=
cm s enc

/-- Rust `impl Content for String`: `fn is_truthy(&self) -> bool { self.len() != 0 }`. -/
def StringC.is_truthy (s : String) : Bool :=
s.utf8ByteSize != 0

/-- Rust `impl Content for String`: `fn capacity_hint(&self, _tpl) -> usize { self.len() }`. -/
def StringC.capacity_hint (s : String) (_tpl : Template) : Nat :=
s.utf8ByteSize

/-- Rust `impl Content for String`: `encoder.write_escaped(self)`. -/
def StringC.render_escaped {σ ε : Type} (E : Encoder σ ε) (s : String) (enc : σ) : σ × Option ε :=
E.write_escaped s enc

/-- Rust `impl Content for String`: `encoder.write_unescaped(self)`. -/
def StringC.render_unescaped {σ ε : Type} (E : Encoder σ ε) (s : String) (enc : σ) : σ × Option ε :=
E.write_unescaped s enc

/-- Rust `impl Content for String`: `crate::cmark::encode(self, encoder)`. -/
def StringC.render_cmark {σ ε : Type} (cm : String → σ → σ × Option ε) (s : String) (enc : σ) : σ × Option ε :=
cm s enc

/-- Rust `impl Content for Option<T>`: `self.is_some()`. -/
def Opt.is_truthy {α : Type} (o : Option α) : Bool :=
o.isSome

/-- Rust `impl Content for Option<T>`: inner hint when `Some`, else `0`. -/
def Opt.capacity_hint {α : Type} (innerHint : α → Template → Nat) (o : Option α) (tpl : Template) : Nat :=
match o with
| some inner => innerHint inner tpl
| _ => 0

/-- Rust `impl Content for Option<T>`:
`if let Some(inner) = self { inner.render_escaped(encoder)?; } Ok(())`. -/
def Opt.render_escaped {α σ ε : Type} (innerEsc : α → σ → σ × Option ε) (o : Option α) (enc : σ) : σ × Option ε :=
match o with
| some inner => bindRM (innerEsc inner enc) (fun e => (e, none))
| none => (enc, none)

/-- Rust `impl Content for Option<T>`:
`if let Some(ref inner) = self { inner.render_unescaped(encoder)?; } Ok(())`. -/
def Opt.render_unescaped {α σ ε : Type} (innerUnesc : α → σ → σ × Option ε) (o : Option α) (enc : σ) : σ × Option ε :=
match o with
| some inner => bindRM (innerUnesc inner enc) (fun e => (e, none))
| none => (enc, none)

/-- Rust `impl Content for Option<T>`:
`if let Some(item) = self { section.render_once(item, encoder)?; } Ok(())`. -/
def Opt.render_section {α σ ε : Type} (ronce : α → σ → σ × Option ε) (o : Option α) (enc : σ) : σ × Option ε :=
match o with
| some item => bindRM (ronce item enc) (fun e => (e, none))
| none => (enc, none)

/-- Rust `Option<T>` does not override `render_cmark`: the trait default runs,
delegating to `Option`'s own `render_escaped`. -/
def Opt.render_cmark {α σ ε : Type} (innerEsc : α → σ → σ × Option ε) (o : Option α) (enc : σ) : σ × Option ε :=
Content.render_cmark_default (Opt.render_escaped innerEsc) o enc

/-- Rust `Option<T>` does not override `render_inverse`: the trait default
runs with `Option`'s own `is_truthy`. -/
def Opt.render_inverse {α σ ε : Type} (o : Option α) (ronce : Option α → σ → σ × Option ε) (enc : σ) : σ × Option ε :=
Content.render_inverse_default Opt.is_truthy o ronce enc

/-- Rust `Result<T, U>`. -/
inductive RResult (α υ : Type) : Type where
| ok : α → RResult α υ
| err : υ → RResult α υ

/-- Rust `impl Content for Result<T, U>`: `self.is_ok()`. -/
def Res.is_truthy {α υ : Type} (r : RResult α υ) : Bool :=
match r with
| RResult.ok _ => true
| RResult.err _ => false

/-- Rust `impl Content for Result<T, U>`: inner hint when `Ok`, else `0`. -/
def Res.capacity_hint {α υ : Type} (innerHint : α → Template → Nat) (r : RResult α υ) (tpl : Template) : Nat :=
match r with
| RResult.ok inner => innerHint inner tpl
| _ => 0

/-- Rust `impl Content for Result<T, U>`:
`if let Ok(inner) = self { inner.render_escaped(encoder)?; } Ok(())`. -/
def Res.render_escaped {α υ σ ε : Type} (innerEsc : α → σ → σ × Option ε) (r : RResult α υ) (enc : σ) : σ × Option ε :=
match r with
| RResult.ok inner => bindRM (innerEsc inner enc) (fun e => (e, none))
| RResult.err _ => (enc, none)

/-- Rust `impl Content for Result<T, U>`:
`if let Ok(ref inner) = self { inner.render_unescaped(encoder)?; } Ok(())`. -/
def Res.render_unescaped {α υ σ ε : Type} (innerUnesc : α → σ → σ × Option ε) (r : RResult α υ) (enc : σ) : σ × Option ε :=
match r with
| RResult.ok inner => bindRM (innerUnesc inner enc) (fun e => (e, none))
| RResult.err _ => (enc, none)

/-- Rust `impl Content for Result<T, U>`:
`if let Ok(item) = self { section.render_once(item, encoder)?; } Ok(())`. -/
def Res.render_section {α υ σ ε : Type} (ronce : α → σ → σ × Option ε) (r : RResult α υ) (enc : σ) : σ × Option ε :=
match r with
| RResult.ok item => bindRM (ronce item enc) (fun e => (e, none))
| RResult.err _ => (enc, none)

/-- Rust `Result<T, U>` does not override `render_cmark`: trait default,
delegating to `Result`'s own `render_escaped`. -/
def Res.render_cmark {α υ σ ε : Type} (innerEsc : α → σ → σ × Option ε) (r : RResult α υ) (enc : σ) : σ × Option ε :=
Content.render_cmark_default (Res.render_escaped innerEsc) r enc

/-- Rust `Result<T, U>` does not override `render_inverse`: trait default with
`Result`'s own `is_truthy`. -/
def Res.render_inverse {α υ σ ε : Type} (r : RResult α υ) (ronce : RResult α υ → σ → σ × Option ε) (enc : σ) : σ × Option ε :=
Content.render_inverse_default Res.is_truthy r ronce enc

/-- Rust `impl Content for Vec<T>`: `fn is_truthy(&self) -> bool { self.len() != 0 }`. -/
def VecC.is_truthy {α : Type} (l : List α) : Bool :=
l.length != 0

/-- Rust `impl Content for Vec<T>`:
`for item in self.iter() { section.render_once(item, encoder)?; } Ok(())`. -/
def VecC.render_section {α σ ε : Type} (ronce : α → σ → σ × Option ε) : List α → σ → σ × Option ε
| [], enc => (enc, none)
| item :: rest, enc => bindRM (ronce item enc) (fun e => VecC.render_section ronce rest e)

/-- Rust `impl Content for &[T]`: `fn is_truthy(&self) -> bool { self.len() != 0 }`. -/
def Slice.is_truthy {α : Type} (l : List α) : Bool :=
l.length != 0

/-- Rust `impl Content for &[T]`:
`for item in self.iter() { section.render_once(item, encoder)?; } Ok(())`. -/
def Slice.render_section {α σ ε : Type} (ronce : α → σ → σ × Option ε) : List α → σ → σ × Option ε
| [], enc => (enc, none)
| item :: rest, enc => bindRM (ronce item enc) (fun e => Slice.render_section ronce rest e)

/-- Rust `HashMap<K, V>` with `K: Borrow<str>`, modelled as an association
list with unique keys. -/
def HashMapM (β : Type) : Type :=
List (String × β)

/-- Rust `HashMap::get(name)`: the value bound to `name`, if any. -/
def HashMapM.get {β : Type} : HashMapM β → String → Option β
| [], _ => none
| (k, v) :: rest, name => if k == name then some v else HashMapM.get rest name

/-- Rust `impl Content for HashMap<K, V>`: `!self.is_empty()`. -/
def HashMapM.is_truthy {β : Type} (m : HashMapM β) : Bool :=
! m.isEmpty

/-- Rust `HashMap` `render_field_escaped`: ignores the hash, looks up the
literal name, delegates to the value or no-ops on a miss. `vEsc` is the
value type's `render_escaped`. -/
def HashMapM.render_field_escaped {β σ ε : Type} (vEsc : β → σ → σ × Option ε) (m : HashMapM β) (_hash : Nat) (name : String) (enc : σ) : σ × Option ε :=
match HashMapM.get m name with
| some v => vEsc v enc
| none => (enc, none)

/-- Rust `HashMap` `render_field_unescaped`. -/
def HashMapM.render_field_unescaped {β σ ε : Type} (vUnesc : β → σ → σ × Option ε) (m : HashMapM β) (_hash : Nat) (name : String) (enc : σ) : σ × Option ε :=
match HashMapM.get m name with
| some v => vUnesc v enc
| none => (enc, none)

/-- Rust `HashMap` `render_field_section`: `vSec v` is
`v.render_section(section, _)` with the given section. -/
def HashMapM.render_field_section {β σ ε : Type} (vSec : β → σ → σ × Option ε) (m : HashMapM β) (_hash : Nat) (name : String) (enc : σ) : σ × Option ε :=
match HashMapM.get m name with
| some v => vSec v enc
| none => (enc, none)

/-- Rust `HashMap` `render_field_inverse`: `vInv v` is
`v.render_inverse(section, _)` with the given section. -/
def HashMapM.render_field_inverse {β σ ε : Type} (vInv : β → σ → σ × Option ε) (m : HashMapM β) (_hash : Nat) (name : String) (enc : σ) : σ × Option ε :=
match HashMapM.get m name with
| some v => vInv v enc
| none => (enc, none)

/-- Rust `BTreeMap<K, V>` with `K: Borrow<str>`, modelled as an association
list with unique keys. -/
def BTreeMapM (β : Type) : Type :=
List (String × β)

/-- Rust `BTreeMap::get(name)`. -/
def BTreeMapM.get {β : Type} : BTreeMapM β → String → Option β
| [], _ => none
| (k, v) :: rest, name => if k == name then some v else BTreeMapM.get rest name

/-- Rust `impl Content for BTreeMap<K, V>`: `!self.is_empty()`. -/
def BTreeMapM.is_truthy {β : Type} (m : BTreeMapM β) : Bool :=
! m.isEmpty

/-- Rust `BTreeMap` `render_field_escaped`. -/
def BTreeMapM.render_field_escaped {β σ ε : Type} (vEsc : β → σ → σ × Option ε) (m : BTreeMapM β) (_hash : Nat) (name : String) (enc : σ) : σ × Option ε :=
match BTreeMapM.get m name with
| some v => vEsc v enc
| none => (enc, none)

/-- Rust `BTreeMap` `render_field_unescaped`. -/
def BTreeMapM.render_field_unescaped {β σ ε : Type} (vUnesc : β → σ → σ × Option ε) (m : BTreeMapM β) (_hash : Nat) (name : String) (enc : σ) : σ × Option ε :=
match BTreeMapM.get m name with
| some v => vUnesc v enc
| none => (enc, none)

/-- Rust `BTreeMap` `render_field_section`. -/
def BTreeMapM.render_field_section {β σ ε : Type} (vSec : β → σ → σ × Option ε) (m : BTreeMapM β) (_hash : Nat) (name : String) (enc : σ) : σ × Option ε :=
match BTreeMapM.get m name with
| some v => vSec v enc
| none => (enc, none)

/-- Rust `BTreeMap` `render_field_inverse`. -/
def BTreeMapM.render_field_inverse {β σ ε : Type} (vInv : β → σ → σ × Option ε) (m : BTreeMapM β) (_hash : Nat) (name : String) (enc : σ) : σ × Option ε :=
match BTreeMapM.get m name with
| some v => vInv v enc
| none => (enc, none)

/-- The spec's comparison adapter for refinement claims: a content value
whose `is_truthy` is always `false`, every other operation left at the
trait default. -/
def Falsy.is_truthy {α : Type} (_a : α) : Bool :=
false

/-- A concrete observable event written to the trace encoder. -/
inductive Ev : Type where
| esc : String → Ev
| unesc : String → Ev
| fmt : String → Ev
| cmark : String → Ev
deriving DecidableEq

/-- A concrete encoder whose state is the list of write events performed
so far; every write succeeds. -/
def traceEncoder : Encoder (List Ev) Unit where
write_escaped := fun s e => (e ++ [Ev.esc s], none)
write_unescaped := fun s e => (e ++ [Ev.unesc s], none)
format_unescaped := fun s e => (e ++ [Ev.fmt s], none)

/-- Modelled from the spec: the markdown converter `crate::cmark::encode`
is code of this repository that is not under `src/`. Per the spec it is
"a pure function taking raw text and an output sink, writing already-final
markup directly", a lightweight-markup-to-markup conversion "distinct from
escaped/unescaped scalar rendering"; on the trace encoder it therefore
records a `cmark` event, distinct from the `esc` event of an escaped
write. -/
def cmarkModel (s : String) (e : List Ev) : List Ev × Option Unit :=
(e ++ [Ev.cmark s], none)

/-- Running an action and then `Ok(())` is the action itself. -/
theorem bindRM_pure {σ ε : Type} (r : σ × Option ε) : bindRM r (fun e => (e, none)) = r := by
obtain ⟨s, oe⟩ := r
cases oe <;> rfl

/-- A string has UTF-8 byte length zero exactly when it is empty. -/
theorem utf8ByteSize_eq_zero_iff (s : String) : s.utf8ByteSize = 0 ↔ s = "" := by
obtain ⟨cs⟩ := s
cases cs with
| nil => exact ⟨fun _ => rfl, fun _ => rfl⟩
| cons c cs =>
  simp only [String.utf8ByteSize_mk, String.utf8Len_eq_zero]
  constructor
  · intro h
    exact absurd h (by simp)
  · intro h
    exact absurd h (by simp [String.ext_iff])

/-- C9: a type that overrides nothing gets the trait defaults:
`is_truthy` is `true`, `capacity_hint` is `0`, `render_escaped` writes
nothing and succeeds, and `render_unescaped` and `render_cmark` delegate
to (and so produce exactly the output of) `render_escaped`. -/
theorem C9_trait_defaults {α σ ε : Type} (self : α) (tpl : Template) (enc : σ)
    (rEsc : α → σ → σ × Option ε) :
    Content.is_truthy_default self = true ∧
    Content.capacity_hint_default self tpl = 0 ∧
    Content.render_escaped_default self enc = ((enc, none) : σ × Option ε) ∧
    Content.render_unescaped_default rEsc self enc = rEsc self enc ∧
    Content.render_cmark_default rEsc self enc = rEsc self enc ∧
    Content.render_unescaped_default (fun a e => Content.render_escaped_default a e) self enc
      = (Content.render_escaped_default self enc : σ × Option ε) ∧
    Content.render_cmark_default (fun a e => Content.render_escaped_default a e) self enc
      = (Content.render_escaped_default self enc : σ × Option ε) :=
⟨rfl, rfl, rfl, rfl, rfl, rfl, rfl⟩

/-- C8: for both text adapters (`&str` and `String`), `capacity_hint` is
exactly the byte length of the string (so `0` for the empty string), and
`is_truthy` holds exactly when the string is non-empty. -/
theorem C8_text_adapters (s : String) (tpl : Template) :
    Str.capacity_hint s tpl = s.utf8ByteSize ∧
    StringC.capacity_hint s tpl = s.utf8ByteSize ∧
    Str.capacity_hint "" tpl = 0 ∧
    StringC.capacity_hint "" tpl = 0 ∧
    (Str.is_truthy s = true ↔ s ≠ "") ∧
    (StringC.is_truthy s = true ↔ s ≠ "") := by
refine ⟨rfl, rfl, rfl, rfl, ?_, ?_⟩ <;>
· simp only [Str.is_truthy, StringC.is_truthy, bne_iff_ne, ne_eq]
  exact not_congr (utf8ByteSize_eq_zero_iff s)

/-- C1: for the trait-default section pair (used by every non-collection
adapter that overrides neither method) and for the overridden section
methods of `Option` and `Result`, exactly one of `render_section` and
`render_inverse` invokes the section's render-once operation while the
other writes nothing, and which one runs is determined solely by
`is_truthy`. -/
theorem C1_exactly_one_section {α σ ε υ : Type} (truthy : α → Bool) (self : α)
    (ronce : α → σ → σ × Option ε) (enc : σ) (o : Option α)
    (ronceO : Option α → σ → σ × Option ε) (r : RResult α υ)
    (ronceR : RResult α υ → σ → σ × Option ε) :
    ((truthy self = true ∧
        Content.render_section_default truthy self ronce enc = ronce self enc ∧
        Content.render_inverse_default truthy self ronce enc = (enc, none)) ∨
      (truthy self = false ∧
        Content.render_section_default truthy self ronce enc = (enc, none) ∧
        Content.render_inverse_default truthy self ronce enc = ronce self enc)) ∧
    ((Opt.is_truthy o = true ∧
        (∃ v, o = some v ∧ Opt.render_section ronce o enc = ronce v enc) ∧
        Opt.render_inverse o ronceO enc = (enc, none)) ∨
      (Opt.is_truthy o = false ∧
        Opt.render_section ronce o enc = (enc, none) ∧
        Opt.render_inverse o ronceO enc = ronceO o enc)) ∧
    ((Res.is_truthy r = true ∧
        (∃ v, r = RResult.ok v ∧ Res.render_section ronce r enc = ronce v enc) ∧
        Res.render_inverse r ronceR enc = (enc, none)) ∨
      (Res.is_truthy r = false ∧
        Res.render_section ronce r enc = (enc, none) ∧
        Res.render_inverse r ronceR enc = ronceR r enc)) := by
refine ⟨?_, ?_, ?_⟩
· cases h : truthy self with
  | true =>
    exact Or.inl ⟨rfl, by simp [Content.render_section_default, h],
      by simp [Content.render_inverse_default, h]⟩
  | false =>
    exact Or.inr ⟨rfl, by simp [Content.render_section_default, h],
      by simp [Content.render_inverse_default, h]⟩
· cases o with
  | some v =>
    exact Or.inl ⟨rfl, ⟨v, rfl, by simp [Opt.render_section, bindRM_pure]⟩,
      by simp [Opt.render_inverse, Content.render_inverse_default, Opt.is_truthy]⟩
  | none =>
    exact Or.inr ⟨rfl, rfl,
      by simp [Opt.render_inverse, Content.render_inverse_default, Opt.is_truthy]⟩
· cases r with
  | ok v =>
    exact Or.inl ⟨rfl, ⟨v, rfl, by simp [Res.render_section, bindRM_pure]⟩,
      by simp [Res.render_inverse, Content.render_inverse_default, Res.is_truthy]⟩
  | err u =>
    exact Or.inr ⟨rfl, rfl,
      by simp [Res.render_inverse, Content.render_inverse_default, Res.is_truthy]⟩

/-- On an always-succeeding render-once that appends `f x` to the output,
`Vec<T>::render_section` appends the per-element outputs concatenated in
source order. -/
theorem VecC.render_section_append {α ω ε : Type} (f : α → List ω) (l : List α) (out : List ω) :
    VecC.render_section (fun x e => (e ++ f x, (none : Option ε))) l out
      = (out ++ (l.map f).flatten, none) := by
induction l generalizing out with
| nil => simp [VecC.render_section]
| cons x xs ih => simp [VecC.render_section, bindRM, ih]

/-- On a render-once that just counts invocations, `Vec<T>::render_section`
over a list of length `n` adds exactly `n`. -/
theorem VecC.render_section_count {α ε : Type} (l : List α) (k : Nat) :
    VecC.render_section (fun _ n => (n + 1, (none : Option ε))) l k = (k + l.length, none) := by
induction l generalizing k with
| nil => simp [VecC.render_section]
| cons x xs ih =>
  simp only [VecC.render_section, bindRM, ih, List.length_cons]
  exact Prod.ext (by omega) rfl

/-- The slice adapter's `render_section` coincides with the `Vec`
adapter's: their source bodies are identical. -/
theorem slice_render_section_eq_vec {α σ ε : Type} (ronce : α → σ → σ × Option ε)
    (l : List α) (enc : σ) :
    Slice.render_section ronce l enc = VecC.render_section ronce l enc := by
induction l generalizing enc with
| nil => rfl
| cons x xs ih =>
  simp only [Slice.render_section, VecC.render_section, bindRM]
  obtain ⟨s, oe⟩ := ronce x enc
  cases oe with
  | none => exact ih s
  | some e => rfl

/-- When the render-once succeeds (appending `f y`) on every element the
guard `p` accepts, and fails with error `errf x` on `x`, rendering the
sequence `l1 ++ x :: l2` writes the outputs of the `l1` elements, stops
at `x` with its error, and never reaches `l2`. -/
theorem VecC.render_section_stops {α ω υ : Type} (p : α → Bool) (f : α → List ω)
    (errf : α → υ) (l1 l2 : List α) (x : α) (out : List ω)
    (h1 : ∀ y ∈ l1, p y = true) (hx : p x = false) :
    VecC.render_section
        (fun a e => if p a then (e ++ f a, none) else (e, some (errf a)))
        (l1 ++ x :: l2) out
      = (out ++ (l1.map f).flatten, some (errf x)) := by
induction l1 generalizing out with
| nil => simp [VecC.render_section, bindRM, hx]
| cons y ys ih =>
  have hy : p y = true := h1 y (List.mem_cons_self y ys)
  simp only [List.cons_append, VecC.render_section, bindRM, hy, if_true, List.append_eq]
  rw [ih (out ++ f y) (fun z hz => h1 z (List.mem_cons_of_mem y hz))]
  simp

/-- C2: for both sequence adapters (`Vec<T>` and `&[T]`), `render_section`
invokes the section's render-once once per element, in source order, with
that element as the content; the empty sequence invokes it zero times and
writes nothing (for every render-once, even a failing one); the total
output is the concatenation of the per-element outputs; and the number of
invocations is exactly the length. -/
theorem C2_sequence_render_section {α ω ε : Type} (f : α → List ω) (l : List α)
    (out : List ω) (k : Nat) :
    VecC.render_section (fun x e => (e ++ f x, (none : Option ε))) l out
      = (out ++ (l.map f).flatten, none) ∧
    Slice.render_section (fun x e => (e ++ f x, (none : Option ε))) l out
      = (out ++ (l.map f).flatten, none) ∧
    (∀ (σ' ε' : Type) (ronce : α → σ' → σ' × Option ε') (enc : σ'),
      VecC.render_section ronce ([] : List α) enc = (enc, none) ∧
      Slice.render_section ronce ([] : List α) enc = (enc, none)) ∧
    VecC.render_section (fun _ n => (n + 1, (none : Option ε))) l k = (k + l.length, none) ∧
    Slice.render_section (fun _ n => (n + 1, (none : Option ε))) l k = (k + l.length, none) := by
refine ⟨VecC.render_section_append f l out, ?_, fun σ' ε' ronce enc => ⟨rfl, rfl⟩, VecC.render_section_count l k, ?_⟩
· rw [slice_render_section_eq_vec]
  exact VecC.render_section_append f l out
· rw [slice_render_section_eq_vec]
  exact VecC.render_section_count l k

/-- C10: over the same elements, the owned-sequence adapter (`Vec<T>`)
and the borrowed-slice adapter (`&[T]`) are observationally equivalent:
`is_truthy` agrees, `render_section` produces the same output and result
for every section and encoder state, and the trait defaults they both
inherit (here, the inverse section driven by their `is_truthy`) coincide. -/
theorem C10_vec_slice_equiv {α σ ε : Type} (l : List α)
    (ronce : α → σ → σ × Option ε) (ronceL : List α → σ → σ × Option ε) (enc : σ) :
    VecC.is_truthy l = Slice.is_truthy l ∧
    VecC.render_section ronce l enc = Slice.render_section ronce l enc ∧
    Content.render_inverse_default VecC.is_truthy l ronceL enc
      = Content.render_inverse_default Slice.is_truthy l ronceL enc ∧
    Content.render_section_default VecC.is_truthy l ronceL enc
      = Content.render_section_default Slice.is_truthy l ronceL enc :=
⟨rfl, (slice_render_section_eq_vec ronce l enc).symm, rfl, rfl⟩

/-- C4: for both string-keyed map adapters, a field lookup for a name
absent from the map writes nothing and succeeds (no error), under each of
the four field operations and for any provided hash. -/
theorem C4_absent_field_noop {β σ ε : Type}
    (vEsc vUnesc vSec vInv : β → σ → σ × Option ε)
    (m : HashMapM β) (m2 : BTreeMapM β) (hash : Nat) (name : String) (enc : σ)
    (h : HashMapM.get m name = none) (h2 : BTreeMapM.get m2 name = none) :
    HashMapM.render_field_escaped vEsc m hash name enc = (enc, none) ∧
    HashMapM.render_field_unescaped vUnesc m hash name enc = (enc, none) ∧
    HashMapM.render_field_section vSec m hash name enc = (enc, none) ∧
    HashMapM.render_field_inverse vInv m hash name enc = (enc, none) ∧
    BTreeMapM.render_field_escaped vEsc m2 hash name enc = (enc, none) ∧
    BTreeMapM.render_field_unescaped vUnesc m2 hash name enc = (enc, none) ∧
    BTreeMapM.render_field_section vSec m2 hash name enc = (enc, none) ∧
    BTreeMapM.render_field_inverse vInv m2 hash name enc = (enc, none) := by
refine ⟨?_, ?_, ?_, ?_, ?_, ?_, ?_, ?_⟩ <;>
  simp [HashMapM.render_field_escaped, HashMapM.render_field_unescaped,
    HashMapM.render_field_section, HashMapM.render_field_inverse,
    BTreeMapM.render_field_escaped, BTreeMapM.render_field_unescaped,
    BTreeMapM.render_field_section, BTreeMapM.render_field_inverse, h, h2]

/-- Witness for C4: the maps `[("x", "1")]` at the absent name `"y"`,
hash `7`, with a concrete counting value-renderer. -/
theorem C4_absent_field_noop_witness :
    HashMapM.get [("x", "1")] "y" = none ∧
    HashMapM.render_field_escaped (fun (_ : String) (n : Nat) => (n + 1, (none : Option Unit)))
      [("x", "1")] 7 "y" 0 = (0, none) := by
have h := C4_absent_field_noop
  (fun (_ : String) (n : Nat) => (n + 1, (none : Option Unit)))
  (fun _ n => (n + 2, none)) (fun _ n => (n + 3, none)) (fun _ n => (n + 4, none))
  [("x", "1")] [("x", "1")] 7 "y" 0 (by decide) (by decide)
exact ⟨by decide, h.1⟩

/-- C5: for both map adapters, all four field operations are invariant
under the provided hash: any two hashes give identical output and result,
lookup uses only the literal key string. -/
theorem C5_hash_never_influences_lookup {β σ ε : Type}
    (vEsc vUnesc vSec vInv : β → σ → σ × Option ε)
    (m : HashMapM β) (m2 : BTreeMapM β) (h1 h2 : Nat) (name : String) (enc : σ) :
    HashMapM.render_field_escaped vEsc m h1 name enc
      = HashMapM.render_field_escaped vEsc m h2 name enc ∧
    HashMapM.render_field_unescaped vUnesc m h1 name enc
      = HashMapM.render_field_unescaped vUnesc m h2 name enc ∧
    HashMapM.render_field_section vSec m h1 name enc
      = HashMapM.render_field_section vSec m h2 name enc ∧
    HashMapM.render_field_inverse vInv m h1 name enc
      = HashMapM.render_field_inverse vInv m h2 name enc ∧
    BTreeMapM.render_field_escaped vEsc m2 h1 name enc
      = BTreeMapM.render_field_escaped vEsc m2 h2 name enc ∧
    BTreeMapM.render_field_unescaped vUnesc m2 h1 name enc
      = BTreeMapM.render_field_unescaped vUnesc m2 h2 name enc ∧
    BTreeMapM.render_field_section vSec m2 h1 name enc
      = BTreeMapM.render_field_section vSec m2 h2 name enc ∧
    BTreeMapM.render_field_inverse vInv m2 h1 name enc
      = BTreeMapM.render_field_inverse vInv m2 h2 name enc :=
⟨rfl, rfl, rfl, rfl, rfl, rfl, rfl, rfl⟩

/-- C6: adapters forward the sink's result unmodified (shown for the
string, `Option` and `Result` adapters), and a multi-step rendering
(`Vec<T>::render_section`) stops at the first render-once failure:
elements before the failure have their output left in place, the failing
element's error is returned unmodified, and elements after it are never
invoked. -/
theorem C6_error_propagation {α ω υ σ ε : Type} (p : α → Bool) (f : α → List ω)
    (errf : α → υ) (l1 l2 : List α) (x : α) (out : List ω)
    (E : Encoder σ ε) (innerEsc : α → σ → σ × Option ε) (v : α) (s : String) (enc : σ)
    (h1 : ∀ y ∈ l1, p y = true) (hx : p x = false) :
    VecC.render_section
        (fun a e => if p a then (e ++ f a, none) else (e, some (errf a)))
        (l1 ++ x :: l2) out
      = (out ++ (l1.map f).flatten, some (errf x)) ∧
    Slice.render_section
        (fun a e => if p a then (e ++ f a, none) else (e, some (errf a)))
        (l1 ++ x :: l2) out
      = (out ++ (l1.map f).flatten, some (errf x)) ∧
    Str.render_escaped E s enc = E.write_escaped s enc ∧
    Opt.render_escaped innerEsc (some v) enc = innerEsc v enc ∧
    Res.render_section innerEsc (RResult.ok v : RResult α υ) enc = innerEsc v enc := by
refine ⟨VecC.render_section_stops p f errf l1 l2 x out h1 hx, ?_, rfl, ?_, ?_⟩
· rw [slice_render_section_eq_vec]
  exact VecC.render_section_stops p f errf l1 l2 x out h1 hx
· simp [Opt.render_escaped, bindRM_pure]
· simp [Res.render_section, bindRM_pure]

/-- Witness for C6: rendering `[1] ++ 0 :: [2]` where `0` fails: element
`1`'s output stays, error `10` is returned, element `2` is never
rendered. -/
theorem C6_error_propagation_witness :
    VecC.render_section
        (fun (a : Nat) (e : List Nat) => if a != 0 then (e ++ [a], none) else (e, some (a + 10)))
        ([1] ++ 0 :: [2]) ([] : List Nat)
      = ([1], some 10) := by
have h := C6_error_propagation (fun (a : Nat) => a != 0) (fun a => [a]) (fun a => a + 10)
  [1] [2] 0 ([] : List Nat) traceEncoder (fun (a : Nat) (e : List Ev) => (e, none)) 0 "s" []
  (by decide) (by decide)
exact h.1

/-- C3 counterexample: the claim that `Some(v)` behaves identically to
the unwrapped `v` for markup rendering fails. `Option<T>` does not
override `render_cmark`, so `Some("a")` renders markup through the trait
default, which delegates to `Option`'s `render_escaped` (an escaped
write), whereas the bare string renders markup through the markdown
converter; on the trace encoder the two leave different events. -/
theorem C3_markup_counterexample :
    Opt.render_cmark (Str.render_escaped traceEncoder) (some "a") ([] : List Ev)
      ≠ Str.render_cmark cmarkModel "a" ([] : List Ev) := by
decide

/-- C3 (amended): `None` behaves identically to the spec's always-falsy
default adapter under `is_truthy`, `capacity_hint`, the three scalar
rendering operations and both section operations; `Some(v)` behaves
identically to the unwrapped `v` for escaped and unescaped rendering,
its markup rendering delegates to `v`'s escaped rendering (not `v`'s
markup rendering), and `render_section` runs the section body exactly
once, passing the unwrapped `v`, while `render_inverse` writes nothing. -/
theorem C3_option_amended {α σ ε : Type} (innerHint : α → Template → Nat)
    (innerEsc innerUnesc ronceI : α → σ → σ × Option ε)
    (ronceO : Option α → σ → σ × Option ε) (v : α) (tpl : Template) (enc : σ) :
    Opt.is_truthy (none : Option α) = Falsy.is_truthy (none : Option α) ∧
    Opt.capacity_hint innerHint (none : Option α) tpl
      = Content.capacity_hint_default (none : Option α) tpl ∧
    Opt.render_escaped innerEsc (none : Option α) enc
      = (Content.render_escaped_default (none : Option α) enc : σ × Option ε) ∧
    Opt.render_unescaped innerUnesc (none : Option α) enc
      = Content.render_unescaped_default
          (fun o e => Content.render_escaped_default o e) (none : Option α) enc ∧
    Opt.render_cmark innerEsc (none : Option α) enc
      = Content.render_cmark_default
          (fun o e => Content.render_escaped_default o e) (none : Option α) enc ∧
    Opt.render_section ronceI (none : Option α) enc
      = Content.render_section_default Falsy.is_truthy (none : Option α) ronceO enc ∧
    Opt.render_inverse (none : Option α) ronceO enc
      = Content.render_inverse_default Falsy.is_truthy (none : Option α) ronceO enc ∧
    Opt.render_escaped innerEsc (some v) enc = innerEsc v enc ∧
    Opt.render_unescaped innerUnesc (some v) enc = innerUnesc v enc ∧
    Opt.render_cmark innerEsc (some v) enc = innerEsc v enc ∧
    Opt.render_section ronceI (some v) enc = ronceI v enc ∧
    Opt.render_inverse (some v) ronceO enc = (enc, none) := by
refine ⟨rfl, rfl, rfl, rfl, rfl, rfl, rfl, ?_, ?_, ?_, ?_, rfl⟩
· simp [Opt.render_escaped, bindRM_pure]
· simp [Opt.render_unescaped, bindRM_pure]
· simp [Opt.render_cmark, Content.render_cmark_default, Opt.render_escaped, bindRM_pure]
· simp [Opt.render_section, bindRM_pure]

/-- The protocol-observable scalar view of a `Result` content value:
everything a section body can learn about it through the scalar part of
the content protocol (`is_truthy`, `capacity_hint`, the three renders;
the four field operations stay at the no-op trait default for `Result`
and observe nothing). -/
def Res.view {α υ σ ε : Type} (innerHint : α → Template → Nat)
    (innerEsc innerUnesc : α → σ → σ × Option ε) (r : RResult α υ) :
    Bool × (Template → Nat) × (σ → σ × Option ε) × (σ → σ × Option ε) × (σ → σ × Option ε) :=
(Res.is_truthy r, Res.capacity_hint innerHint r,
  Res.render_escaped innerEsc r, Res.render_unescaped innerUnesc r,
  Res.render_cmark innerEsc r)

/-- C7: a failure-carrying `Result` is falsy, renders nothing as a
scalar and under `render_section`, and runs the section body exactly once
under `render_inverse`; the failure detail is discarded: every
protocol-observable aspect of `Err(u1)` and `Err(u2)` coincides, so a
section body that reads the value only through the protocol produces
identical output for any two failure details. -/
theorem C7_failure_is_falsy {α υ σ ε : Type} (innerHint : α → Template → Nat)
    (innerEsc innerUnesc ronceI : α → σ → σ × Option ε)
    (ronceR : RResult α υ → σ → σ × Option ε)
    (u u1 u2 : υ) (enc : σ) (tpl : Template)
    (body : Bool × (Template → Nat) × (σ → σ × Option ε) × (σ → σ × Option ε) × (σ → σ × Option ε) → σ → σ × Option ε) :
    Res.is_truthy (RResult.err u : RResult α υ) = false ∧
    Res.capacity_hint innerHint (RResult.err u : RResult α υ) tpl = 0 ∧
    Res.render_escaped innerEsc (RResult.err u : RResult α υ) enc = (enc, none) ∧
    Res.render_unescaped innerUnesc (RResult.err u : RResult α υ) enc = (enc, none) ∧
    Res.render_cmark innerEsc (RResult.err u : RResult α υ) enc = (enc, none) ∧
    Res.render_section ronceI (RResult.err u : RResult α υ) enc = (enc, none) ∧
    Res.render_inverse (RResult.err u : RResult α υ) ronceR enc = ronceR (RResult.err u) enc ∧
    Res.view innerHint innerEsc innerUnesc (RResult.err u1 : RResult α υ)
      = Res.view innerHint innerEsc innerUnesc (RResult.err u2 : RResult α υ) ∧
    Res.render_inverse (RResult.err u1 : RResult α υ)
        (fun r e => body (Res.view innerHint innerEsc innerUnesc r) e) enc
      = Res.render_inverse (RResult.err u2 : RResult α υ)
        (fun r e => body (Res.view innerHint innerEsc innerUnesc r) e) enc :=
⟨rfl, rfl, rfl, rfl, rfl, rfl, rfl, rfl, rfl⟩
